import Mathlib

/-!
Shallow embedding of the BATTLE2 core battle engine
(`engine/src/battle_engine/core.py`) and of the launcher-side replay
reconciliation helper (`engine/src/battle_engine/cli.py`), together with
proofs checking the natural-language specification against the code.

Python dictionaries are modelled as insertion-ordered association lists,
Python `bytearray`s as `List Nat` with values reduced mod 256 at write time,
and 32-bit wrap-around as explicit `% 2 ^ 32`.
-/

namespace Battle

/-! ### Association-list model of Python dicts (insertion ordered) -/

/-- Model of `d.get(k, dflt)` on a Python dict: first matching key wins
(keys are unique in a real dict). -/
def alistGetD {α : Type} (l : List (String × α)) (k : String) (d : α) : α :=
  match l with
  | [] => d
  | (k', v) :: t => if k' = k then v else alistGetD t k d

/-- Model of `d[k] = v`: replaces the value in place if the key is present
(keeping its position, as Python dicts do), else appends. -/
def alistSet {α : Type} (l : List (String × α)) (k : String) (v : α) :
    List (String × α) :=
  match l with
  | [] => [(k, v)]
  | (k', v') :: t => if k' = k then (k', v) :: t else (k', v') :: alistSet t k v

/-- Model of `d.setdefault(k, v)`: no change if the key is present, else append. -/
def alistSetD {α : Type} (l : List (String × α)) (k : String) (v : α) :
    List (String × α) :=
  if l.any (fun p => p.1 = k) then l else l ++ [(k, v)]

/-- Model of an in-place update `d[k] = f d[k]` of an existing entry
(e.g. `stats[killer]["kills"] += 1`). Leaves the list unchanged when the key
is absent; in the engine the touched keys always exist. -/
def alistModify {α : Type} (l : List (String × α)) (k : String) (f : α → α) :
    List (String × α) :=
  match l with
  | [] => []
  | (k', v') :: t => if k' = k then (k', f v') :: t else (k', v') :: alistModify t k f

/-- Membership of a key, model of `k in d`. -/
def alistHas {α : Type} (l : List (String × α)) (k : String) : Bool :=
  l.any (fun p => p.1 = k)

/-! ### ISA opcodes (`core.py` top) -/

def NOP : Nat := 0
def MOV : Nat := 1
def ADD : Nat := 2
def LOAD : Nat := 3
def STORE : Nat := 4
def JMP : Nat := 5
def JZ : Nat := 6
def HALT : Nat := 7
def MOVP : Nat := 8
def ADDP : Nat := 9
def LOADI : Nat := 10
def STOREI : Nat := 11

/-! ### Config (`Weights`, `Config`, `Config.from_dict`) -/

structure Weights where
  alive : Int
  kill : Int
  territory : Int
  territory_bucket : Int
deriving DecidableEq

def Weights.default : Weights := ⟨1, 5, 1, 64⟩

structure Config where
  arena_size : Int
  instr_per_tick : Int
  seed : Int
  win_mode : String
  weights : Weights
deriving DecidableEq

def Config.default : Config := ⟨4096, 8, 1337, "score_fallback", Weights.default⟩

/-- Input dictionary for `Config.from_dict`: each field is `some v` when the
key is present (already coerced to `int`/`str` as the Python code does) and
`none` when absent.  Unknown keys never influence the result, so they are
not modelled. -/
structure ConfigInput where
  arena_size : Option Int
  instr_per_tick : Option Int
  seed : Option Int
  win_mode : Option String
  w_alive : Option Int
  w_kill : Option Int
  w_territory : Option Int
  w_territory_bucket : Option Int
deriving DecidableEq

/-- Empty input dictionary. -/
def ConfigInput.empty : ConfigInput := ⟨none, none, none, none, none, none, none, none⟩

/-- Translation of `Config.from_dict`: every field is `d.get(key, default)`;
no clamping and no validation appears in the source. -/
def Config.from_dict (d : ConfigInput) : Config :=
  { arena_size := d.arena_size.getD 4096
    instr_per_tick := d.instr_per_tick.getD 8
    seed := d.seed.getD 1337
    win_mode := d.win_mode.getD "score_fallback"
    weights :=
      { alive := d.w_alive.getD 1
        kill := d.w_kill.getD 5
        territory := d.w_territory.getD 1
        territory_bucket := d.w_territory_bucket.getD 64 } }

/-! ### Agent -/

structure Agent where
  agent_id : String
  pc : Nat
  alive : Bool
  regA : Nat
  regZ : Nat
  regP : Nat
  cpu_used : Nat
  mem_writes : Nat
  region : Nat × Nat
deriving DecidableEq

/-- Fresh agent as built in `Kernel.spawn` (registers `{A:0, Z:0, P:0}`). -/
def Agent.mk0 (agent_id : String) (pc : Nat) (region : Nat × Nat) : Agent :=
  ⟨agent_id, pc, true, 0, 0, 0, 0, 0, region⟩

/-! ### VM state and memory primitives -/

/-- One coalesced diff run `(start, length, writer)` as stored in
`VM.tick_diffs`. -/
abbrev DiffRun := Nat × Nat × Option String

structure VMachine where
  arena : List Nat
  writer : List (Option String)
  tick_diffs : List DiffRun
deriving DecidableEq

/-- `VM.__init__`: arena of `NOP` bytes, unowned writer tags, empty diffs.
A negative size gives empty arrays, as `[NOP] * size` does in Python. -/
def VMachine.init (size : Int) : VMachine :=
  ⟨List.replicate size.toNat NOP, List.replicate size.toNat none, []⟩

/-- `VM.clear_tick_diffs`. -/
def VMachine.clear_tick_diffs (vm : VMachine) : VMachine :=
  { vm with tick_diffs := [] }

/-- `VM._rd32`: little-endian 32-bit read with every byte index wrapped
modulo the arena length. -/
def VMachine.rd32 (vm : VMachine) (pos : Nat) : Nat :=
  let m := vm.arena.length
  let p := pos % m
  vm.arena.getD p 0 |||
    (vm.arena.getD ((p + 1) % m) 0 <<< 8) |||
    (vm.arena.getD ((p + 2) % m) 0 <<< 16) |||
    (vm.arena.getD ((p + 3) % m) 0 <<< 24)

/-- Diff-list update performed by `VM._wr8` at effective index `i`: extend
the last run exactly when `last.start + last.length == i` and
`last.writer == owner`, else append a fresh run of length 1. -/
def pushDiff (diffs : List DiffRun) (i : Nat) (owner : Option String) :
    List DiffRun :=
  match diffs.getLast? with
  | some (a, l, o) =>
      if a + l = i ∧ o = owner then diffs.dropLast ++ [(a, l + 1, o)]
      else diffs ++ [(i, 1, owner)]
  | none => diffs ++ [(i, 1, owner)]

/-- `VM._wr8`: write one byte at `pos % m`, tag the writer, update diffs. -/
def VMachine.wr8 (vm : VMachine) (pos : Nat) (val : Nat) (owner : Option String) :
    VMachine :=
  let m := vm.arena.length
  let i := pos % m
  { arena := vm.arena.set i (val % 256)
    writer := vm.writer.set i owner
    tick_diffs := pushDiff vm.tick_diffs i owner }

/-- Byte-store loop of `VM.load_code` (`arena[(s+i)%m] = b;
writer[(s+i)%m] = owner`), bypassing the diff list as the source does. -/
def VMachine.storeCode : VMachine → Nat → List Nat → Option String → VMachine
  | vm, _, [], _ => vm
  | vm, p, b :: rest, o =>
      let m := vm.arena.length
      VMachine.storeCode
        { vm with arena := vm.arena.set (p % m) b, writer := vm.writer.set (p % m) o }
        (p + 1) rest o

/-- `VM.load_code`: returns the updated VM and the region `(s, e)`. -/
def VMachine.load_code (vm : VMachine) (start : Nat) (code : List Nat)
    (owner : Option String) : VMachine × Nat × Nat :=
  let m := vm.arena.length
  let s := start % m
  let vm' := VMachine.storeCode vm s code owner
  (vm', s, (s + max 1 code.length - 1) % m)

/-! ### VM.step -/

/-- Translation of `VM.step`: decode the opcode under `pc % m` and execute.
Returns the updated VM and agent.  A dead agent is returned untouched. -/
def VMachine.step (vm : VMachine) (a : Agent) : VMachine × Agent :=
  if ¬ a.alive then (vm, a)
  else
    let m := vm.arena.length
    let ip := a.pc % m
    let op := vm.arena.getD ip 0
    if op = NOP then (vm, { a with pc := (ip + 1) % m })
    else if op = HALT then (vm, { a with alive := false })
    else if op = MOV then
      (vm, { a with regA := vm.rd32 (ip + 1) % 2 ^ 32, pc := (ip + 5) % m })
    else if op = ADD then
      let v := (a.regA + vm.rd32 (ip + 1) % 2 ^ 32) % 2 ^ 32
      (vm, { a with regA := v, regZ := if v = 0 then 1 else 0, pc := (ip + 5) % m })
    else if op = LOAD then
      let addr := vm.rd32 (ip + 1) % m
      let v := vm.arena.getD addr 0
      (vm, { a with regA := v, regZ := if v = 0 then 1 else 0, pc := (ip + 5) % m })
    else if op = STORE then
      let addr := vm.rd32 (ip + 1) % m
      (vm.wr8 addr a.regA (some a.agent_id),
        { a with mem_writes := a.mem_writes + 1, pc := (ip + 5) % m })
    else if op = JMP then (vm, { a with pc := vm.rd32 (ip + 1) % m })
    else if op = JZ then
      let addr := vm.rd32 (ip + 1) % m
      (vm, { a with pc := if a.regZ = 1 then addr else (ip + 5) % m })
    else if op = MOVP then
      (vm, { a with regP := vm.rd32 (ip + 1) % 2 ^ 32, pc := (ip + 5) % m })
    else if op = ADDP then
      (vm, { a with regP := (a.regP + vm.rd32 (ip + 1) % 2 ^ 32) % 2 ^ 32,
                    pc := (ip + 5) % m })
    else if op = LOADI then
      let addr := a.regP % m
      let v := vm.arena.getD addr 0
      (vm, { a with regA := v, regZ := if v = 0 then 1 else 0, pc := (ip + 1) % m })
    else if op = STOREI then
      let addr := a.regP % m
      (vm.wr8 addr a.regA (some a.agent_id),
        { a with mem_writes := a.mem_writes + 1, pc := (ip + 1) % m })
    else (vm, { a with alive := false })

/-- Translation of the assembler helper `enc`. -/
def enc (op : Nat) (imm : Option Nat) : List Nat :=
  match imm with
  | none => [op]
  | some imm =>
      let v := imm % 2 ^ 32
      [op, v % 256, v / 2 ^ 8 % 256, v / 2 ^ 16 % 256, v / 2 ^ 24 % 256]

/-! ### Kernel state -/

structure Stats where
  alive_ticks : Nat
  total_cpu : Nat
  total_mem_writes : Nat
  kills : Nat
  deaths : Nat
  territory_max : Nat
  territory_sum : Nat
  territory_last : Nat
deriving DecidableEq

/-- Zeroed stats record created by `Kernel.spawn`. -/
def Stats.fresh : Stats := ⟨0, 0, 0, 0, 0, 0, 0, 0⟩

/-- Kill/death events appended to a tick's `events` list. -/
inductive Event where
  | kill (victim : String) (by_ : String)
  | death (victim : String)
deriving DecidableEq

structure Kernel where
  cfg : Config
  vm : VMachine
  agents : List Agent
  tick : Nat
  score : List (String × Int)
  alive_prev : List (String × Bool)
  stats : List (String × Stats)
deriving DecidableEq

/-- `Kernel.__init__` (sink and renderer are I/O and not modelled). -/
def Kernel.init (cfg : Config) : Kernel :=
  ⟨cfg, VMachine.init cfg.arena_size, [], 0, [], [], []⟩

/-- Translation of `Kernel.spawn`: loads the code, appends the agent, and
initialises score (`setdefault`), `alive_prev` and stats entries. -/
def Kernel.spawn (k : Kernel) (agent_id : String) (entry : Nat) (code : List Nat) :
    Kernel :=
  let r := k.vm.load_code entry code (some agent_id)
  let a := Agent.mk0 agent_id r.2.1 (r.2.1, r.2.2)
  { k with
    vm := r.1
    agents := k.agents ++ [a]
    score := alistSetD k.score agent_id 0
    alive_prev := alistSet k.alive_prev agent_id a.alive
    stats := alistSet k.stats agent_id Stats.fresh }

/-! ### Tick phases of `Kernel.run` -/

/-- Inner quota loop for one agent
(`for _ in range(instr_per_tick): if not a.alive: break; step; cpu_used += 1`).
The third component is ghost instrumentation counting `VM.step` invocations;
it does not influence the state. -/
def runQuota : VMachine → Agent → Nat → VMachine × Agent × Nat
  | vm, a, 0 => (vm, a, 0)
  | vm, a, n + 1 =>
      if ¬ a.alive then (vm, a, 0)
      else
        let s := vm.step a
        let a' := { s.2 with cpu_used := s.2.cpu_used + 1 }
        let r := runQuota s.1 a' n
        (r.1, r.2.1, r.2.2 + 1)

/-- Agent-stepping phase of a tick: each agent in creation order is skipped
when dead, otherwise its `cpu_used` is reset to 0 and the quota loop runs. -/
def stepAgents (n : Nat) : VMachine → List Agent → VMachine × List Agent
  | vm, [] => (vm, [])
  | vm, a :: rest =>
      if ¬ a.alive then
        let r := stepAgents n vm rest
        (r.1, a :: r.2)
      else
        let q := runQuota vm { a with cpu_used := 0 } n
        let r := stepAgents n q.1 rest
        (r.1, q.2.1 :: r.2)

/-- Count of arena cells whose writer tag is `id`
(`Counter(self.vm.writer).get(id, 0)`). -/
def countOwned (writer : List (Option String)) (id : String) : Nat :=
  writer.countP (fun w => w = some id)

/-- Stats-update phase (`alive_ticks`, `total_cpu`, `total_mem_writes`). -/
def statsPhase (agents : List Agent) (stats : List (String × Stats)) :
    List (String × Stats) :=
  agents.foldl
    (fun st a =>
      alistModify st a.agent_id (fun s =>
        { s with
          alive_ticks := s.alive_ticks + (if a.alive then 1 else 0)
          total_cpu := s.total_cpu + a.cpu_used
          total_mem_writes := a.mem_writes }))
    stats

/-- Territory stats phase (`territory_last`, `territory_sum`, `territory_max`). -/
def territoryStatsPhase (writer : List (Option String)) (agents : List Agent)
    (stats : List (String × Stats)) : List (String × Stats) :=
  agents.foldl
    (fun st a =>
      let cells := countOwned writer a.agent_id
      alistModify st a.agent_id (fun s =>
        { s with
          territory_last := cells
          territory_sum := s.territory_sum + cells
          territory_max := if cells > s.territory_max then cells else s.territory_max }))
    stats

/-- Alive-bonus phase: every alive agent gains `weights.alive`. -/
def aliveScoring (w : Int) (agents : List Agent) (score : List (String × Int)) :
    List (String × Int) :=
  agents.foldl
    (fun sc a =>
      if a.alive then alistSet sc a.agent_id (alistGetD sc a.agent_id 0 + w) else sc)
    score

/-- `Kernel._apply_territory_scoring`. -/
def applyTerritoryScoring (w : Weights) (writer : List (Option String))
    (agents : List Agent) (score : List (String × Int)) : List (String × Int) :=
  if w.territory ≤ 0 then score
  else
    agents.foldl
      (fun sc a =>
        let cells := countOwned writer a.agent_id
        let buckets := cells / (max 1 w.territory_bucket).toNat
        if buckets ≠ 0 then
          alistSet sc a.agent_id (alistGetD sc a.agent_id 0 + (buckets : Int) * w.territory)
        else sc)
      score

/-- Mutable state threaded through the kill-attribution loop. -/
structure KillSt where
  score : List (String × Int)
  stats : List (String × Stats)
  events : List Event
deriving DecidableEq

/-- Kill-attribution step for one agent: if it transitioned from alive to
dead, examine the writer tag under its `pc`; a non-empty foreign tag is
credited with a kill, otherwise an uncredited death is recorded. -/
def killStep (vm : VMachine) (alive_prev : List (String × Bool)) (wkill : Int)
    (st : KillSt) (a : Agent) : KillSt :=
  let was_alive := alistGetD alive_prev a.agent_id true
  if was_alive ∧ ¬ a.alive then
    match vm.writer.getD (a.pc % vm.arena.length) none with
    | some kid =>
        if kid ≠ "" ∧ kid ≠ a.agent_id then
          { score := alistSet st.score kid (alistGetD st.score kid 0 + wkill)
            stats := alistModify
              (alistModify st.stats kid (fun s => { s with kills := s.kills + 1 }))
              a.agent_id (fun s => { s with deaths := s.deaths + 1 })
            events := st.events ++ [Event.kill a.agent_id kid] }
        else
          { st with
            stats := alistModify st.stats a.agent_id
              (fun s => { s with deaths := s.deaths + 1 })
            events := st.events ++ [Event.death a.agent_id] }
    | none =>
        { st with
          stats := alistModify st.stats a.agent_id
            (fun s => { s with deaths := s.deaths + 1 })
          events := st.events ++ [Event.death a.agent_id] }
  else st

/-- Kill-attribution phase over all agents in creation order. -/
def killPhase (vm : VMachine) (alive_prev : List (String × Bool)) (wkill : Int)
    (agents : List Agent) (st : KillSt) : KillSt :=
  agents.foldl (killStep vm alive_prev wkill) st

/-! ### Replay records and snapshots -/

/-- Per-agent entry of a tick record. -/
structure AgentSnap where
  id : String
  pc : Nat
  alive : Bool
  cpu_used : Nat
  mem_writes : Nat
  region : Nat × Nat
deriving DecidableEq

/-- One replay line, seen as the set of keys the engine and the launcher
helper care about.  A field is `none` when the JSON object lacks that key.
`aliveTop` models a top-level `"alive"` key; no record written by the engine
ever has one. -/
structure Record where
  tick : Option Int
  ver : Option Int
  agents : Option (List AgentSnap)
  score : Option (List (String × Int))
  events : Option (List Event)
  memory_diffs : Option (List DiffRun)
  aliveTop : Option (List String)
deriving DecidableEq

/-- Header record emitted first by `Kernel.run`
(`{tick: 0, ver: 6, config: ...}`; the config payload is irrelevant to the
reconciliation helper and not carried). -/
def headerRecord : Record := ⟨some 0, some 6, none, none, none, none, none⟩

/-- Translation of `Kernel._snapshot`. -/
def Kernel.snapshot (k : Kernel) (events : List Event) : Record :=
  { tick := some (k.tick : Int)
    ver := none
    agents := some (k.agents.map (fun a =>
      ⟨a.agent_id, a.pc, a.alive, a.cpu_used, a.mem_writes, a.region⟩))
    score := some k.score
    events := some events
    memory_diffs := some k.vm.tick_diffs
    aliveTop := none }

/-! ### One tick and the run loop -/

/-- Body of one iteration of the tick loop in `Kernel.run` (tick number `t`):
clear diffs, step agents, update stats, apply alive/territory scoring, run
kill attribution, snapshot, and snapshot `alive` into `alive_prev`. -/
def Kernel.runTick (k : Kernel) (t : Nat) : Kernel × Record :=
  let k0 := { k with tick := t, vm := k.vm.clear_tick_diffs }
  let sp := stepAgents k0.cfg.instr_per_tick.toNat k0.vm k0.agents
  let vm1 := sp.1
  let agents1 := sp.2
  let stats1 := statsPhase agents1 k0.stats
  let stats2 := territoryStatsPhase vm1.writer agents1 stats1
  let score1 := aliveScoring k0.cfg.weights.alive agents1 k0.score
  let score2 := applyTerritoryScoring k0.cfg.weights vm1.writer agents1 score1
  let ks := killPhase vm1 k0.alive_prev k0.cfg.weights.kill agents1
    ⟨score2, stats2, []⟩
  let k1 : Kernel :=
    { k0 with
      vm := vm1
      agents := agents1
      score := ks.score
      stats := ks.stats
      alive_prev := agents1.foldl (fun ap a => alistSet ap a.agent_id a.alive)
        k0.alive_prev }
  (k1, Kernel.snapshot { k1 with alive_prev := k0.alive_prev } ks.events)

/-- Number of alive agents. -/
def aliveCount (agents : List Agent) : Nat :=
  (agents.filter (fun a => a.alive)).length

/-- Tick loop of `Kernel.run`, breaking when at most one agent is alive.
Returns the final kernel and the tick records emitted. -/
def runLoop : Kernel → Nat → Nat → Kernel × List Record
  | k, _, 0 => (k, [])
  | k, t, r + 1 =>
      let s := k.runTick t
      if aliveCount s.1.agents ≤ 1 then (s.1, [s.2])
      else
        let rest := runLoop s.1 (t + 1) r
        (rest.1, s.2 :: rest.2)

/-! ### Winner resolution (tail of `Kernel.run`) -/

/-- Model of Python `str.lower()` for the ASCII mode strings the engine
compares (`String.toLower` is extensionally the same but is defined by
well-founded recursion, which blocks evaluation in proofs). -/
def pyLower (s : String) : String :=
  String.mk (s.data.map Char.toLower)

/-- Sort key relation of `sorted(self.score.items(), key=lambda kv: (-kv[1], kv[0]))`:
`p` precedes `q` when `p`'s key tuple `(-score, id)` is at most `q`'s. -/
def keyLE (p q : String × Int) : Prop :=
  q.2 < p.2 ∨ (p.2 = q.2 ∧ p.1 ≤ q.1)

instance keyLE.decidable : DecidableRel keyLE := by
  intro p q
  unfold keyLE
  infer_instance

instance keyLE.total : IsTotal (String × Int) keyLE := by
  constructor
  intro p q
  unfold keyLE
  rcases lt_trichotomy p.2 q.2 with h | h | h
  · exact Or.inr (Or.inl h)
  · rcases le_total p.1 q.1 with h1 | h1
    · exact Or.inl (Or.inr ⟨h, h1⟩)
    · exact Or.inr (Or.inr ⟨h.symm, h1⟩)
  · exact Or.inl (Or.inl h)

instance keyLE.trans : IsTrans (String × Int) keyLE := by
  constructor
  intro p q u hpq hqu
  rcases hpq with h1 | ⟨h1, h1'⟩
  · rcases hqu with h2 | ⟨h2, _⟩
    · exact Or.inl (h2.trans h1)
    · exact Or.inl (h2 ▸ h1)
  · rcases hqu with h2 | ⟨h2, h2'⟩
    · exact Or.inl (h1 ▸ h2)
    · exact Or.inr ⟨h1.trans h2, h1'.trans h2'⟩

/-- `sorted(score.items(), key=lambda kv: (-kv[1], kv[0]))`. -/
def sortScores (s : List (String × Int)) : List (String × Int) :=
  List.insertionSort keyLE s

/-- Winner resolution at the tail of `Kernel.run`: a sole survivor wins
outright; otherwise `survival` gives no winner, and the score modes award
the top of the sorted score list when it is uniquely highest by score. -/
def resolveWinner (agents : List Agent) (win_mode : String)
    (score : List (String × Int)) : String :=
  let aliveIds := (agents.filter (fun a => a.alive)).map (fun a => a.agent_id)
  let mode := pyLower (if win_mode = "" then "score_fallback" else win_mode)
  match aliveIds with
  | [x] => x
  | _ =>
      if mode = "survival" then ""
      else
        match sortScores score with
        | [] => ""
        | [x] => x.1
        | x :: y :: _ => if y.2 < x.2 then x.1 else ""

/-- Translation of `Kernel.run` (telemetry header and summary file are I/O;
the replay body is returned as a list of records).  Returns the winner, the
final kernel state and the emitted tick records. -/
def Kernel.run (k : Kernel) (max_ticks : Nat) : String × Kernel × List Record :=
  let r := runLoop k 1 max_ticks
  (resolveWinner r.1.agents r.1.cfg.win_mode r.1.score, r.1, r.2)

/-! ### Launcher-side replay reconciliation (`cli.py::_final_from_replay`) -/

/-- Value of key `k` in an id-keyed JSON object, when it is an int. -/
def alistLookup (l : List (String × Int)) (k : String) : Option Int :=
  match l with
  | [] => none
  | (k', v) :: t => if k' = k then some v else alistLookup t k

/-- Scanner state of `_final_from_replay`. -/
structure FinalSt where
  A_last : Option Int
  B_last : Option Int
  A_alive : Nat
  B_alive : Nat
  seen : List Int
deriving DecidableEq

/-- Per-line body of the scan loop in `_final_from_replay`: record the last
observed `score["A"]`/`score["B"]`, and when the line has both an int `tick`
and a top-level `"alive"` list, count the tick once per id listed. -/
def scanRecord (st : FinalSt) (r : Record) : FinalSt :=
  let st1 :=
    match r.score with
    | none => st
    | some sc =>
        let st' := match alistLookup sc "A" with
          | some v => { st with A_last := some v }
          | none => st
        match alistLookup sc "B" with
        | some v => { st' with B_last := some v }
        | none => st'
  match r.tick, r.aliveTop with
  | some t, some al =>
      if t ∈ st1.seen then st1
      else
        { st1 with
          seen := st1.seen ++ [t]
          A_alive := st1.A_alive + (if "A" ∈ al then 1 else 0)
          B_alive := st1.B_alive + (if "B" ∈ al then 1 else 0) }
  | _, _ => st1

/-- Model of Python `int(x or 0)` for an optional int. -/
def pyOrZero (x : Option Int) : Int :=
  match x with
  | none => 0
  | some v => v

/-- Translation of `_final_from_replay`: returns
`(A_score, B_score, A_alive_ticks, B_alive_ticks)`. -/
def final_from_replay (replay : List Record) : Int × Int × Nat × Nat :=
  let st := replay.foldl scanRecord ⟨none, none, 0, 0, []⟩
  (pyOrZero st.A_last, pyOrZero st.B_last, st.A_alive, st.B_alive)

/-! ### Spec-side definitions used to state refinement claims -/

/-- Agent whose score is uniquely highest, following the words of the spec's
winner-resolution claim: the id of the sole agent attaining the maximum
score, or `""` when the top score is not uniquely attained. -/
def uniqueTopScorer (s : List (String × Int)) : String :=
  match s.filter (fun p => s.all (fun q => q.2 ≤ p.2)) with
  | [w] => w.1
  | _ => ""

/-- Victim named by a kill/death event. -/
def victimOf : Event → String
  | .kill v _ => v
  | .death v => v

/-- Events the kill-attribution step contributes for one agent; the emitted
event depends only on the VM, `alive_prev` and the agent, never on the
score/stats accumulator. -/
def eventsOf (vm : VMachine) (ap : List (String × Bool)) (a : Agent) : List Event :=
  if alistGetD ap a.agent_id true ∧ ¬ a.alive then
    match vm.writer.getD (a.pc % vm.arena.length) none with
    | some kid =>
        if kid ≠ "" ∧ kid ≠ a.agent_id then [Event.kill a.agent_id kid]
        else [Event.death a.agent_id]
    | none => [Event.death a.agent_id]
  else []

/-- Sum of the run lengths of a diff list. -/
def sumLens (ds : List DiffRun) : Nat :=
  (ds.map (fun r => r.2.1)).sum

/-- Cell-by-cell expansion of one diff run: the run `(start, len, owner)`
covers the contiguous addresses `start, start+1, …, start+len-1`, all with
the same owner. -/
def flattenRun (r : DiffRun) : List (Nat × Option String) :=
  (List.range r.2.1).map (fun j => (r.1 + j, r.2.2))

/-- Cell-by-cell expansion of a whole diff list. -/
def flattenDiffs (ds : List DiffRun) : List (Nat × Option String) :=
  (ds.map flattenRun).flatten

/-- One byte write `(pos, val, owner)` as issued to `VM._wr8`. -/
abbrev WriteOp := Nat × Nat × Option String

/-- Sequence of `VM._wr8` calls, as a tick performs them. -/
def applyWrites (vm : VMachine) (ws : List WriteOp) : VMachine :=
  ws.foldl (fun v w => v.wr8 w.1 w.2.1 w.2.2) vm

/-- One step of the last-observed-score scan: keep the previous value unless
this record's `score` object has an int entry for `id`. -/
def scoreScan (id : String) (acc : Option Int) (r : Record) : Option Int :=
  match r.score with
  | some sc =>
      match alistLookup sc id with
      | some v => some v
      | none => acc
  | none => acc

/-- Last `score[id]` value observed while scanning a replay in order,
following the words of the spec for the reconciliation helper. -/
def specLastScore (replay : List Record) (id : String) : Option Int :=
  replay.foldl (scoreScan id) none

/-- Number of distinct ticks in whose record `agents[*].alive == true` for
the given id, following the words of the claim for the reconciliation
helper. -/
def specAliveTicks (replay : List Record) (id : String) : Nat :=
  ((replay.filterMap
      (fun r =>
        match r.tick, r.agents with
        | some t, some ags =>
            if ags.any (fun s => s.id = id ∧ s.alive) then some t else none
        | _, _ => none)).dedup).length

/-! ### Concrete scenarios -/

/-- Arena-16 configuration of the spec's wrap-around store scenario. -/
def wrapCfg : Config := { Config.default with arena_size := 16 }

/-- Kernel of the wrap-around scenario: one agent, `MOV 0xAA; STORE 18; HALT`. -/
def wrapKernel : Kernel :=
  (Kernel.init wrapCfg).spawn "A" 0
    (enc MOV (some 0xAA) ++ enc STORE (some 18) ++ enc HALT none)

/-- Result of running the wrap-around scenario. -/
def wrapRun : String × Kernel × List Record := wrapKernel.run 10

/-- Arena-48 configuration for the posthumous-kill scenario. -/
def pkCfg : Config := { Config.default with arena_size := 48 }

/-- Posthumous-kill scenario: `B` plants a `HALT` byte at cell 8 and then
halts on its own code during tick 1; `A` walks over `NOP`s and executes the
planted byte during tick 2; `C` idles to keep the run alive. -/
def pkKernel : Kernel :=
  (((Kernel.init pkCfg).spawn "A" 0 [NOP]).spawn "B" 16
    (enc MOV (some 7) ++ enc STORE (some 8) ++ enc HALT none)).spawn "C" 32 [NOP]

/-- The posthumous-kill scenario stopped after tick 1. -/
def pkRunOne : String × Kernel × List Record := pkKernel.run 1

/-- The posthumous-kill scenario run to completion (it stops at tick 2). -/
def pkRunTwo : String × Kernel × List Record := pkKernel.run 2

/-! ## Theorems -/

/-! ### Small association-list lemmas -/

theorem alistSetD_of_has {α : Type} (l : List (String × α)) (k : String) (v : α)
    (h : alistHas l k = true) : alistSetD l k v = l := by
  unfold alistSetD alistHas at *
  simp only [h, if_true]

/-! ### C10 -/

/-- C10: for every agent with `alive == false` and every VM state, `VM.step`
is a no-op — the agent (pc, registers, counters) and the VM (arena bytes,
writer tags, tick diff list) are both returned unchanged. -/
theorem C10_step_dead_noop (vm : VMachine) (a : Agent) (h : a.alive = false) :
    vm.step a = (vm, a) := by
  simp [VMachine.step, h]

/-- Witness for C10 at a concrete dead agent. -/
theorem C10_step_dead_noop_witness :
    (VMachine.init 16).step { Agent.mk0 "A" 3 (0, 0) with alive := false } =
      (VMachine.init 16, { Agent.mk0 "A" 3 (0, 0) with alive := false }) :=
  C10_step_dead_noop (VMachine.init 16)
    { Agent.mk0 "A" 3 (0, 0) with alive := false } rfl

/-! ### C3 -/

/-- C3 counterexample: `Config.from_dict` performs no clamping, so an input
with `arena_size = 10`, `instr_per_tick = 0`, `win_mode = "banana"`,
`weights.alive = -1` and `territory_bucket = 0` yields a `Config` holding
exactly those out-of-range values, refuting the claim that every constructed
`Config` lies within the legal ranges. -/
theorem C3_counterexample :
    Config.from_dict ⟨some 10, some 0, none, some "banana", some (-1), none, none, some 0⟩ =
      ⟨10, 0, 1337, "banana", ⟨-1, 5, 1, 0⟩⟩ ∧
    ¬ (256 ≤ (Config.from_dict
        ⟨some 10, some 0, none, some "banana", some (-1), none, none, some 0⟩).arena_size) ∧
    ¬ (1 ≤ (Config.from_dict
        ⟨some 10, some 0, none, some "banana", some (-1), none, none, some 0⟩).instr_per_tick) ∧
    ¬ ((Config.from_dict
        ⟨some 10, some 0, none, some "banana", some (-1), none, none, some 0⟩).win_mode
          ∈ ["survival", "score", "score_fallback"]) := by
  decide

/-- C3 amended: `Config.from_dict` never raises and ignores unknown keys,
but performs no clamping at all — every field is the input value when the
key is present (coerced, unmodified) and the default otherwise; the defaults
themselves are in range (`from_dict` on the empty dict is the default
config). -/
theorem C3_from_dict_passthrough (d : ConfigInput) :
    (Config.from_dict d).arena_size = d.arena_size.getD 4096 ∧
    (Config.from_dict d).instr_per_tick = d.instr_per_tick.getD 8 ∧
    (Config.from_dict d).seed = d.seed.getD 1337 ∧
    (Config.from_dict d).win_mode = d.win_mode.getD "score_fallback" ∧
    (Config.from_dict d).weights =
      ⟨d.w_alive.getD 1, d.w_kill.getD 5, d.w_territory.getD 1,
        d.w_territory_bucket.getD 64⟩ ∧
    Config.from_dict ConfigInput.empty = Config.default :=
  ⟨rfl, rfl, rfl, rfl, rfl, rfl⟩

/-! ### C5 -/

/-- C5 counterexample: a duplicate-id `spawn` and a zero-length-code `spawn`
both succeed and leave observable state: the duplicate spawn appends a
second agent and overwrites arena byte 5 and its writer tag, and the
zero-length spawn appends an agent as well — refuting the claim that such
calls fail fast with no partial state. -/
theorem C5_counterexample :
    (((Kernel.init wrapCfg).spawn "A" 0 [1, 2]).spawn "A" 5 [9]).agents.length = 2 ∧
    (((Kernel.init wrapCfg).spawn "A" 0 [1, 2]).spawn "A" 5 [9]).vm.arena.getD 5 0 = 9 ∧
    ((Kernel.init wrapCfg).spawn "A" 0 [1, 2]).vm.arena.getD 5 0 = 0 ∧
    ((Kernel.init wrapCfg).spawn "A" 0 [1, 2]).vm.writer.getD 5 none = none ∧
    (((Kernel.init wrapCfg).spawn "A" 0 [1, 2]).spawn "A" 5 [9]).vm.writer.getD 5 none
      = some "A" ∧
    (((Kernel.init wrapCfg).spawn "A" 0 [1, 2]).spawn "Z" 7 []).agents.length = 2 := by
  decide

/-- C5 amended: `spawn` performs no validation and cannot fail.  Every call
appends exactly one agent and resets the id's stats entry; a duplicate id
keeps the existing score entry (`setdefault`); zero-length code changes no
arena byte or writer tag and yields the degenerate region
`(entry mod N, entry mod N)`. -/
theorem C5_spawn_no_validation (k : Kernel) (id : String) (entry : Nat)
    (code : List Nat) :
    (k.spawn id entry code).agents.length = k.agents.length + 1 ∧
    (alistHas k.score id = true → (k.spawn id entry code).score = k.score) ∧
    (code = [] →
      (k.spawn id entry code).vm = k.vm ∧
      (k.spawn id entry code).agents = k.agents ++
        [Agent.mk0 id (entry % k.vm.arena.length)
          (entry % k.vm.arena.length, entry % k.vm.arena.length)]) ∧
    (k.spawn id entry code).stats = alistSet k.stats id Stats.fresh := by
  refine ⟨?_, ?_, ?_, rfl⟩
  · simp [Kernel.spawn]
  · intro h
    simp [Kernel.spawn, alistSetD_of_has _ _ _ h]
  · intro h
    subst h
    constructor
    · simp [Kernel.spawn, VMachine.load_code, VMachine.storeCode]
    · simp [Kernel.spawn, VMachine.load_code, VMachine.storeCode,
        Nat.mod_mod_of_dvd entry (dvd_refl k.vm.arena.length)]

/-- Witness for C5 at a concrete duplicate-id, zero-length spawn. -/
theorem C5_spawn_no_validation_witness :
    (((Kernel.init wrapCfg).spawn "A" 0 [1, 2]).spawn "A" 3 []).score =
        ((Kernel.init wrapCfg).spawn "A" 0 [1, 2]).score ∧
      (((Kernel.init wrapCfg).spawn "A" 0 [1, 2]).spawn "A" 3 []).vm =
        ((Kernel.init wrapCfg).spawn "A" 0 [1, 2]).vm :=
  ⟨(C5_spawn_no_validation ((Kernel.init wrapCfg).spawn "A" 0 [1, 2]) "A" 3 []).2.1
      (by decide),
    ((C5_spawn_no_validation ((Kernel.init wrapCfg).spawn "A" 0 [1, 2]) "A" 3 []).2.2.1
      rfl).1⟩

/-! ### C8 -/

/-- C8: every VM memory access is taken modulo the arena size — `_rd32` and
`_wr8` agree on `pos` and `pos mod N`, the written index is in bounds — and
in the concrete arena-16 scenario `MOV 0xAA; STORE 18; HALT` the engine ends
with `arena[2] == 0xAA` and `writer[2]` equal to the agent's id. -/
theorem C8_wraparound_access :
    (∀ (vm : VMachine) (pos : Nat), vm.rd32 pos = vm.rd32 (pos % vm.arena.length)) ∧
    (∀ (vm : VMachine) (pos v : Nat) (o : Option String),
      vm.wr8 pos v o = vm.wr8 (pos % vm.arena.length) v o ∧
      (0 < vm.arena.length → pos % vm.arena.length < vm.arena.length)) ∧
    wrapRun.2.1.vm.arena.getD 2 0 = 0xAA ∧
    wrapRun.2.1.vm.writer.getD 2 none = some "A" := by
  refine ⟨?_, ?_, by decide, by decide⟩
  · intro vm pos
    simp [VMachine.rd32, Nat.mod_mod_of_dvd pos (dvd_refl vm.arena.length)]
  · intro vm pos v o
    constructor
    · simp [VMachine.wr8, Nat.mod_mod_of_dvd pos (dvd_refl vm.arena.length)]
    · intro h
      exact Nat.mod_lt pos h

/-- Witness for C8's in-bounds conjunct at a concrete access. -/
theorem C8_wraparound_access_witness :
    18 % (VMachine.init 16).arena.length < (VMachine.init 16).arena.length :=
  (C8_wraparound_access.2.1 (VMachine.init 16) 18 0 none).2 (by decide)

/-! ### C9 -/

/-- C9: kill attribution never checks that the credited killer is alive.  In
the posthumous-kill scenario, `B` is dead from tick 1 on, yet when `A` dies
during tick 2 on cell 8 — last written by `B` — the tick-2 record carries
`{type:"kill", victim:"A", by:"B"}`, `B`'s score grows by `weights.kill`,
and `B`'s kills counter becomes 1. -/
theorem C9_dead_killer_credited :
    pkRunOne.2.1.agents.map (fun a => (a.agent_id, a.alive)) =
      [("A", true), ("B", false), ("C", true)] ∧
    pkRunTwo.2.1.agents.map (fun a => (a.agent_id, a.alive)) =
      [("A", false), ("B", false), ("C", true)] ∧
    pkRunTwo.2.1.vm.writer.getD 8 none = some "B" ∧
    pkRunTwo.2.2.getLast?.map (fun r => r.events) = some (some [Event.kill "A" "B"]) ∧
    alistGetD pkRunTwo.2.1.score "B" 0 =
      alistGetD pkRunOne.2.1.score "B" 0 + pkCfg.weights.kill ∧
    (alistGetD pkRunOne.2.1.stats "B" Stats.fresh).kills = 0 ∧
    (alistGetD pkRunTwo.2.1.stats "B" Stats.fresh).kills = 1 := by
  decide

/-! ### C6 -/

theorem step_cpu_used (vm : VMachine) (a : Agent) :
    (vm.step a).2.cpu_used = a.cpu_used := by
  unfold VMachine.step
  dsimp only
  by_cases h0 : ¬ a.alive = true
  · rw [if_pos h0]
  rw [if_neg h0]
  by_cases h1 : vm.arena.getD (a.pc % vm.arena.length) 0 = NOP
  · rw [if_pos h1]
  rw [if_neg h1]
  by_cases h2 : vm.arena.getD (a.pc % vm.arena.length) 0 = HALT
  · rw [if_pos h2]
  rw [if_neg h2]
  by_cases h3 : vm.arena.getD (a.pc % vm.arena.length) 0 = MOV
  · rw [if_pos h3]
  rw [if_neg h3]
  by_cases h4 : vm.arena.getD (a.pc % vm.arena.length) 0 = ADD
  · rw [if_pos h4]
  rw [if_neg h4]
  by_cases h5 : vm.arena.getD (a.pc % vm.arena.length) 0 = LOAD
  · rw [if_pos h5]
  rw [if_neg h5]
  by_cases h6 : vm.arena.getD (a.pc % vm.arena.length) 0 = STORE
  · rw [if_pos h6]
  rw [if_neg h6]
  by_cases h7 : vm.arena.getD (a.pc % vm.arena.length) 0 = JMP
  · rw [if_pos h7]
  rw [if_neg h7]
  by_cases h8 : vm.arena.getD (a.pc % vm.arena.length) 0 = JZ
  · rw [if_pos h8]
  rw [if_neg h8]
  by_cases h9 : vm.arena.getD (a.pc % vm.arena.length) 0 = MOVP
  · rw [if_pos h9]
  rw [if_neg h9]
  by_cases h10 : vm.arena.getD (a.pc % vm.arena.length) 0 = ADDP
  · rw [if_pos h10]
  rw [if_neg h10]
  by_cases h11 : vm.arena.getD (a.pc % vm.arena.length) 0 = LOADI
  · rw [if_pos h11]
  rw [if_neg h11]
  by_cases h12 : vm.arena.getD (a.pc % vm.arena.length) 0 = STOREI
  · rw [if_pos h12]
  rw [if_neg h12]

theorem runQuota_dead (vm : VMachine) (a : Agent) (n : Nat) (h : a.alive = false) :
    runQuota vm a n = (vm, a, 0) := by
  cases n with
  | zero => rfl
  | succ n => simp [runQuota, h]

theorem runQuota_count_le (vm : VMachine) (a : Agent) (n : Nat) :
    (runQuota vm a n).2.2 ≤ n := by
  induction n generalizing vm a with
  | zero => simp [runQuota]
  | succ n ih =>
      unfold runQuota
      by_cases h : a.alive
      · simp only [h, not_true, if_neg, ite_false]
        exact Nat.succ_le_succ (ih _ _)
      · simp [h]

theorem runQuota_count_eq (vm : VMachine) (a : Agent) (n : Nat)
    (h : a.alive = true) (h2 : (runQuota vm a n).2.1.alive = true) :
    (runQuota vm a n).2.2 = n := by
  induction n generalizing vm a with
  | zero => rfl
  | succ n ih =>
      unfold runQuota at h2 ⊢
      simp only [h, not_true, ite_false] at h2 ⊢
      by_cases ha : ((vm.step a).2).alive
      · exact congrArg (· + 1) (ih _ _ ha (by simpa using h2))
      · rw [runQuota_dead _ _ _ (by simpa using ha)] at h2
        simp only at h2
        exact absurd h2 (by simpa using ha)

theorem runQuota_cpu (vm : VMachine) (a : Agent) (n : Nat) :
    (runQuota vm a n).2.1.cpu_used = a.cpu_used + (runQuota vm a n).2.2 := by
  induction n generalizing vm a with
  | zero => rfl
  | succ n ih =>
      unfold runQuota
      by_cases h : a.alive
      · simp only [h, not_true, ite_false]
        rw [ih]
        simp [step_cpu_used]
        omega
      · simp [h]

/-- C6: per tick, a dead agent is skipped (zero `VM.step` invocations, state
untouched), while an alive agent has `cpu_used` reset to 0 and then runs the
quota loop; the loop invokes `VM.step` at most `instr_per_tick` times,
exactly that many unless the agent died mid-tick, and `cpu_used` ends equal
to the number of invocations (the ghost count returned by `runQuota`). -/
theorem C6_quota_fairness (vm : VMachine) (a : Agent) (rest : List Agent) (n : Nat) :
    (a.alive = false →
      stepAgents n vm (a :: rest) =
        ((stepAgents n vm rest).1, a :: (stepAgents n vm rest).2) ∧
      runQuota vm a n = (vm, a, 0)) ∧
    (a.alive = true →
      stepAgents n vm (a :: rest) =
        ((stepAgents n (runQuota vm { a with cpu_used := 0 } n).1 rest).1,
          (runQuota vm { a with cpu_used := 0 } n).2.1 ::
            (stepAgents n (runQuota vm { a with cpu_used := 0 } n).1 rest).2) ∧
      (runQuota vm { a with cpu_used := 0 } n).2.2 ≤ n ∧
      ((runQuota vm { a with cpu_used := 0 } n).2.1.alive = true →
        (runQuota vm { a with cpu_used := 0 } n).2.2 = n) ∧
      (runQuota vm { a with cpu_used := 0 } n).2.1.cpu_used =
        (runQuota vm { a with cpu_used := 0 } n).2.2) := by
  constructor
  · intro h
    exact ⟨by simp [stepAgents, h], runQuota_dead vm a n h⟩
  · intro h
    refine ⟨by simp [stepAgents, h], runQuota_count_le _ _ _, ?_, ?_⟩
    · exact runQuota_count_eq _ _ _ (by simp [h])
    · simpa using runQuota_cpu vm { a with cpu_used := 0 } n

/-- Witness for C6: a lone NOP-walking agent with quota 2 is stepped exactly
twice and ends the tick with `cpu_used = 2`. -/
theorem C6_quota_fairness_witness :
    (runQuota (VMachine.init 4) { Agent.mk0 "A" 0 (0, 0) with cpu_used := 0 } 2).2.2
      = 2 ∧
    (runQuota (VMachine.init 4) { Agent.mk0 "A" 0 (0, 0) with cpu_used := 0 } 2).2.1.cpu_used
      = 2 :=
  ⟨((C6_quota_fairness (VMachine.init 4) (Agent.mk0 "A" 0 (0, 0)) [] 2).2 rfl).2.2.1
      (by decide),
    by
      rw [((C6_quota_fairness (VMachine.init 4) (Agent.mk0 "A" 0 (0, 0)) [] 2).2
        rfl).2.2.2]
      exact ((C6_quota_fairness (VMachine.init 4) (Agent.mk0 "A" 0 (0, 0)) [] 2).2
        rfl).2.2.1 (by decide)⟩

/-! ### C7 -/

theorem flattenDiffs_append (xs ys : List DiffRun) :
    flattenDiffs (xs ++ ys) = flattenDiffs xs ++ flattenDiffs ys := by
  simp [flattenDiffs]

theorem flattenRun_succ (a l : Nat) (o : Option String) :
    flattenRun (a, l + 1, o) = flattenRun (a, l, o) ++ [(a + l, o)] := by
  simp [flattenRun, List.range_succ]

theorem sumLens_eq_length_flatten (ds : List DiffRun) :
    sumLens ds = (flattenDiffs ds).length := by
  induction ds with
  | nil => rfl
  | cons r t ih =>
      simp [sumLens, flattenDiffs, flattenRun] at ih ⊢
      omega

theorem flattenDiffs_singleton (r : DiffRun) : flattenDiffs [r] = flattenRun r := by
  simp [flattenDiffs]

theorem flattenRun_one (i : Nat) (o : Option String) :
    flattenRun (i, 1, o) = [(i, o)] := by
  simp [flattenRun, List.range_succ]

theorem flatten_pushDiff (ds : List DiffRun) (i : Nat) (o : Option String) :
    flattenDiffs (pushDiff ds i o) = flattenDiffs ds ++ [(i, o)] := by
  unfold pushDiff
  cases h : ds.getLast? with
  | none =>
      rw [List.getLast?_eq_none_iff.mp h]
      simp [flattenDiffs, flattenRun, List.range_succ]
  | some r =>
      obtain ⟨a, l, ow⟩ := r
      dsimp only
      have hds : ds.dropLast ++ [(a, l, ow)] = ds :=
        List.dropLast_append_getLast? _ h
      by_cases hc : a + l = i ∧ ow = o
      · rw [if_pos hc]
        obtain ⟨hsum, hw⟩ := hc
        subst hw
        have key : flattenDiffs ds.dropLast ++ flattenRun (a, l, ow) = flattenDiffs ds := by
          rw [← flattenDiffs_singleton, ← flattenDiffs_append, hds]
        rw [flattenDiffs_append, flattenDiffs_singleton, flattenRun_succ, hsum,
          ← List.append_assoc, key]
      · rw [if_neg hc]
        rw [flattenDiffs_append, flattenDiffs_singleton, flattenRun_one]

theorem pushDiff_length_iff (ds : List DiffRun) (i : Nat) (o : Option String) :
    (pushDiff ds i o).length = ds.length ↔
      ∃ a l, ds.getLast? = some (a, l, o) ∧ a + l = i := by
  unfold pushDiff
  cases h : ds.getLast? with
  | none =>
      simp only [h, List.length_append, List.length_cons, List.length_nil]
      constructor
      · intro hlen
        omega
      · rintro ⟨a, l, hc, -⟩
        cases hc
  | some r =>
      obtain ⟨a, l, ow⟩ := r
      dsimp only
      have hne : ds ≠ [] := by
        intro hnil
        rw [hnil] at h
        cases h
      have hlen : ds.dropLast.length + 1 = ds.length := by
        have := List.length_dropLast ds
        have hpos : 0 < ds.length := List.length_pos.mpr hne
        omega
      by_cases hc : a + l = i ∧ ow = o
      · rw [if_pos hc]
        obtain ⟨hsum, hw⟩ := hc
        subst hw
        simp only [List.length_append, List.length_cons, List.length_nil]
        constructor
        · intro _
          exact ⟨a, l, rfl, hsum⟩
        · intro _
          omega
      · rw [if_neg hc]
        simp only [List.length_append, List.length_cons, List.length_nil]
        constructor
        · intro hfalse
          omega
        · rintro ⟨a', l', hsome, hsum⟩
          simp only [Option.some.injEq, Prod.mk.injEq] at hsome
          exact absurd ⟨by rw [hsome.1, hsome.2.1]; exact hsum, hsome.2.2⟩ hc

theorem wr8_arena_length (vm : VMachine) (pos v : Nat) (o : Option String) :
    (vm.wr8 pos v o).arena.length = vm.arena.length := by
  simp [VMachine.wr8]

theorem applyWrites_flatten (ws : List WriteOp) (vm : VMachine) :
    flattenDiffs (applyWrites vm ws).tick_diffs =
      flattenDiffs vm.tick_diffs ++
        ws.map (fun w => (w.1 % vm.arena.length, w.2.2)) := by
  induction ws generalizing vm with
  | nil => simp [applyWrites]
  | cons w t ih =>
      have step1 : applyWrites vm (w :: t) = applyWrites (vm.wr8 w.1 w.2.1 w.2.2) t := rfl
      rw [step1, ih]
      have harena : (vm.wr8 w.1 w.2.1 w.2.2).arena.length = vm.arena.length :=
        wr8_arena_length vm w.1 w.2.1 w.2.2
      have hdiffs : (vm.wr8 w.1 w.2.1 w.2.2).tick_diffs =
          pushDiff vm.tick_diffs (w.1 % vm.arena.length) w.2.2 := rfl
      rw [harena, hdiffs, flatten_pushDiff]
      simp

/-- C7: the diff accumulator is emptied at tick start; a byte write extends
the last run exactly when it is contiguous with it and has the same writer
(characterised here by the run count staying constant), and otherwise
appends a fresh run; and for any sequence of writes starting from an empty
accumulator, the cell-by-cell expansion of the final diff list is exactly
the list of written (effective address, owner) pairs — hence the run lengths
sum to the number of writes and each run covers contiguous addresses with a
single owner. -/
theorem C7_diff_coalescing :
    (∀ vm : VMachine, vm.clear_tick_diffs.tick_diffs = []) ∧
    (∀ (ds : List DiffRun) (i : Nat) (o : Option String),
      (pushDiff ds i o).length = ds.length ↔
        ∃ a l, ds.getLast? = some (a, l, o) ∧ a + l = i) ∧
    (∀ (vm : VMachine) (ws : List WriteOp), vm.tick_diffs = [] →
      flattenDiffs (applyWrites vm ws).tick_diffs =
        ws.map (fun w => (w.1 % vm.arena.length, w.2.2)) ∧
      sumLens (applyWrites vm ws).tick_diffs = ws.length) := by
  refine ⟨fun vm => rfl, pushDiff_length_iff, ?_⟩
  intro vm ws h
  have hf := applyWrites_flatten ws vm
  rw [h, show flattenDiffs ([] : List DiffRun) = [] from rfl, List.nil_append] at hf
  refine ⟨hf, ?_⟩
  rw [sumLens_eq_length_flatten, hf, List.length_map]

/-- Witness for C7: two contiguous writes by one owner coalesce into a
single run of length 2. -/
theorem C7_diff_coalescing_witness :
    flattenDiffs (applyWrites (VMachine.init 8)
        [(3, 7, some "A"), (4, 9, some "A")]).tick_diffs =
      [(3, some "A"), (4, some "A")] ∧
    sumLens (applyWrites (VMachine.init 8)
        [(3, 7, some "A"), (4, 9, some "A")]).tick_diffs = 2 :=
  ⟨(C7_diff_coalescing.2.2 (VMachine.init 8)
      [(3, 7, some "A"), (4, 9, some "A")] rfl).1,
    (C7_diff_coalescing.2.2 (VMachine.init 8)
      [(3, 7, some "A"), (4, 9, some "A")] rfl).2⟩

/-! ### C2 -/

theorem alistGetD_set_self {α : Type} (l : List (String × α)) (k : String) (v : α)
    (d : α) : alistGetD (alistSet l k v) k d = v := by
  induction l with
  | nil => simp [alistSet, alistGetD]
  | cons p t ih =>
      obtain ⟨k', v'⟩ := p
      by_cases h : k' = k
      · simp [alistSet, alistGetD, h]
      · simp [alistSet, alistGetD, h, ih]

theorem alistHas_modify {α : Type} (l : List (String × α)) (k k' : String)
    (f : α → α) : alistHas (alistModify l k f) k' = alistHas l k' := by
  induction l with
  | nil => rfl
  | cons p t ih =>
      obtain ⟨k0, v0⟩ := p
      by_cases h : k0 = k
      · simp [alistModify, alistHas, h]
      · simp only [alistModify, if_neg h]
        simp [alistHas] at ih ⊢
        rw [ih]

theorem alistGetD_modify_self {α : Type} (l : List (String × α)) (k : String)
    (f : α → α) (d : α) (h : alistHas l k = true) :
    alistGetD (alistModify l k f) k d = f (alistGetD l k d) := by
  induction l with
  | nil => cases h
  | cons p t ih =>
      obtain ⟨k0, v0⟩ := p
      by_cases hk : k0 = k
      · simp [alistModify, alistGetD, hk]
      · have h' : alistHas t k = true := by
          simpa [alistHas, hk] using h
        simp [alistModify, alistGetD, hk, ih h']

theorem alistGetD_modify_ne {α : Type} (l : List (String × α)) (k k' : String)
    (f : α → α) (d : α) (h : k' ≠ k) :
    alistGetD (alistModify l k f) k' d = alistGetD l k' d := by
  induction l with
  | nil => rfl
  | cons p t ih =>
      obtain ⟨k0, v0⟩ := p
      by_cases hk : k0 = k
      · subst hk
        have hne : ¬ k0 = k' := fun he => h he.symm
        simp [alistModify, alistGetD, hne]
      · by_cases hk' : k0 = k'
        · simp [alistModify, alistGetD, hk, hk', h]
        · simp [alistModify, alistGetD, hk, hk', ih]

theorem killStep_events (vm : VMachine) (ap : List (String × Bool)) (w : Int)
    (st : KillSt) (a : Agent) :
    (killStep vm ap w st a).events = st.events ++ eventsOf vm ap a := by
  unfold killStep eventsOf
  dsimp only
  by_cases h1 : alistGetD ap a.agent_id true ∧ ¬ a.alive
  · rw [if_pos h1, if_pos h1]
    cases hw : vm.writer.getD (a.pc % vm.arena.length) none with
    | none => rfl
    | some kid =>
        dsimp only
        by_cases h2 : kid ≠ "" ∧ kid ≠ a.agent_id
        · rw [if_pos h2, if_pos h2]
        · rw [if_neg h2, if_neg h2]
  · rw [if_neg h1, if_neg h1]
    simp

theorem killPhase_events (vm : VMachine) (ap : List (String × Bool)) (w : Int)
    (agents : List Agent) (st : KillSt) :
    (killPhase vm ap w agents st).events =
      st.events ++ (agents.map (eventsOf vm ap)).flatten := by
  induction agents generalizing st with
  | nil => simp [killPhase]
  | cons b t ih =>
      have hstep : killPhase vm ap w (b :: t) st =
          killPhase vm ap w t (killStep vm ap w st b) := rfl
      rw [hstep, ih, killStep_events]
      simp

theorem eventsOf_victim (vm : VMachine) (ap : List (String × Bool)) (a : Agent) :
    ∀ e ∈ eventsOf vm ap a, victimOf e = a.agent_id := by
  unfold eventsOf
  by_cases h1 : alistGetD ap a.agent_id true ∧ ¬ a.alive
  · rw [if_pos h1]
    cases hw : vm.writer.getD (a.pc % vm.arena.length) none with
    | none => simp [victimOf]
    | some kid =>
        dsimp only
        by_cases h2 : kid ≠ "" ∧ kid ≠ a.agent_id
        · rw [if_pos h2]
          simp [victimOf]
        · rw [if_neg h2]
          simp [victimOf]
  · rw [if_neg h1]
    simp

theorem countP_victims_zero (vm : VMachine) (ap : List (String × Bool))
    (t : List Agent) (x : String) (hx : x ∉ t.map Agent.agent_id) :
    ((t.map (eventsOf vm ap)).flatten.countP (fun e => victimOf e = x)) = 0 := by
  induction t with
  | nil => rfl
  | cons b u ih =>
      simp only [List.map_cons, List.flatten_cons, List.countP_append]
      have hb : b.agent_id ≠ x := by
        intro he
        exact hx (by simp [← he])
      have h0 : (eventsOf vm ap b).countP (fun e => victimOf e = x) = 0 := by
        apply List.countP_eq_zero.mpr
        intro e he
        have := eventsOf_victim vm ap b e he
        simp [this, hb]
      have hu : x ∉ u.map Agent.agent_id := by
        intro hmem
        exact hx (by simp [hmem])
      rw [h0, ih hu]

theorem countP_victims_one (vm : VMachine) (ap : List (String × Bool))
    (agents : List Agent) (a : Agent) (hmem : a ∈ agents)
    (hnd : (agents.map Agent.agent_id).Nodup)
    (hlen : (eventsOf vm ap a).length = 1) :
    ((agents.map (eventsOf vm ap)).flatten.countP
      (fun e => victimOf e = a.agent_id)) = 1 := by
  induction agents with
  | nil => cases hmem
  | cons b t ih =>
      simp only [List.map_cons, List.flatten_cons, List.countP_append]
      have hnd2 : b.agent_id ∉ t.map Agent.agent_id ∧ (t.map Agent.agent_id).Nodup := by
        rw [List.map_cons] at hnd
        exact List.nodup_cons.mp hnd
      rcases List.mem_cons.mp hmem with rfl | hmem'
      · have h1 : (eventsOf vm ap a).countP (fun e => victimOf e = a.agent_id) =
            (eventsOf vm ap a).length := by
          apply List.countP_eq_length.mpr
          intro e he
          simp [eventsOf_victim vm ap a e he]
        rw [h1, hlen, countP_victims_zero vm ap t _ hnd2.1]
      · have hb : b.agent_id ≠ a.agent_id := by
          intro he
          exact hnd2.1 (he ▸ (List.mem_map_of_mem Agent.agent_id hmem'))
        have h0 : (eventsOf vm ap b).countP (fun e => victimOf e = a.agent_id) = 0 := by
          apply List.countP_eq_zero.mpr
          intro e he
          simp [eventsOf_victim vm ap b e he, hb]
        rw [h0, ih hmem' hnd2.2]

/-- C2: when an agent transitions from alive to dead in a tick, the kill
attribution phase emits exactly one event naming it as victim.  If the
writer tag under its pc is a non-empty id `kid` different from the victim's,
that event is `{kill, victim, by:=kid}`, processing the victim adds exactly
`weights.kill` to `kid`'s score and one to `kid`'s kills and the victim's
deaths counters; otherwise the event is `{death, victim}`, the victim's
deaths counter increments, and the score map is left untouched. -/
theorem C2_kill_attribution (vm : VMachine) (ap : List (String × Bool)) (w : Int)
    (agents : List Agent) (st : KillSt) (a : Agent) (kid : String)
    (hmem : a ∈ agents) (hnd : (agents.map Agent.agent_id).Nodup)
    (hwas : alistGetD ap a.agent_id true = true) (hdead : a.alive = false)
    (hev : st.events = []) :
    (vm.writer.getD (a.pc % vm.arena.length) none = some kid → kid ≠ "" →
      kid ≠ a.agent_id →
      ((killPhase vm ap w agents st).events.countP
          (fun e => victimOf e = a.agent_id) = 1 ∧
        Event.kill a.agent_id kid ∈ (killPhase vm ap w agents st).events ∧
        alistGetD (killStep vm ap w st a).score kid 0 =
          alistGetD st.score kid 0 + w ∧
        (alistHas st.stats kid = true →
          (alistGetD (killStep vm ap w st a).stats kid Stats.fresh).kills =
            (alistGetD st.stats kid Stats.fresh).kills + 1) ∧
        (alistHas st.stats a.agent_id = true →
          (alistGetD (killStep vm ap w st a).stats a.agent_id Stats.fresh).deaths =
            (alistGetD st.stats a.agent_id Stats.fresh).deaths + 1))) ∧
    ((vm.writer.getD (a.pc % vm.arena.length) none = none ∨
        vm.writer.getD (a.pc % vm.arena.length) none = some "" ∨
        vm.writer.getD (a.pc % vm.arena.length) none = some a.agent_id) →
      ((killPhase vm ap w agents st).events.countP
          (fun e => victimOf e = a.agent_id) = 1 ∧
        Event.death a.agent_id ∈ (killPhase vm ap w agents st).events ∧
        (killStep vm ap w st a).score = st.score ∧
        (alistHas st.stats a.agent_id = true →
          (alistGetD (killStep vm ap w st a).stats a.agent_id Stats.fresh).deaths =
            (alistGetD st.stats a.agent_id Stats.fresh).deaths + 1))) := by
  have hcond : alistGetD ap a.agent_id true ∧ ¬ a.alive := by
    refine ⟨hwas, ?_⟩
    simp [hdead]
  constructor
  · intro hw hne hself
    have hevof : eventsOf vm ap a = [Event.kill a.agent_id kid] := by
      unfold eventsOf
      rw [if_pos hcond, hw]
      dsimp only
      rw [if_pos ⟨hne, hself⟩]
    have hkstep : killStep vm ap w st a =
        { score := alistSet st.score kid (alistGetD st.score kid 0 + w)
          stats := alistModify
            (alistModify st.stats kid (fun s => { s with kills := s.kills + 1 }))
            a.agent_id (fun s => { s with deaths := s.deaths + 1 })
          events := st.events ++ [Event.kill a.agent_id kid] } := by
      unfold killStep
      dsimp only
      rw [if_pos hcond, hw]
      dsimp only
      rw [if_pos ⟨hne, hself⟩]
    refine ⟨?_, ?_, ?_, ?_, ?_⟩
    · rw [killPhase_events, hev, List.nil_append]
      exact countP_victims_one vm ap agents a hmem hnd (by rw [hevof]; rfl)
    · rw [killPhase_events]
      have : Event.kill a.agent_id kid ∈ (agents.map (eventsOf vm ap)).flatten := by
        apply List.mem_flatten.mpr
        exact ⟨eventsOf vm ap a, List.mem_map_of_mem _ hmem, by rw [hevof]; simp⟩
      simp [this]
    · rw [hkstep]
      exact alistGetD_set_self _ _ _ _
    · intro hhas
      rw [hkstep]
      dsimp only
      rw [alistGetD_modify_ne _ _ _ _ _ hself,
        alistGetD_modify_self _ _ _ _ hhas]
    · intro hhas
      rw [hkstep]
      dsimp only
      rw [alistGetD_modify_self _ _ _ _ (by rw [alistHas_modify]; exact hhas),
        alistGetD_modify_ne _ _ _ _ _ (fun he => hself he.symm)]
  · intro hw
    have hevof : eventsOf vm ap a = [Event.death a.agent_id] := by
      unfold eventsOf
      rw [if_pos hcond]
      rcases hw with hw | hw | hw
      all_goals rw [hw]
      all_goals try rfl
      all_goals dsimp only
      all_goals rw [if_neg (by simp)]
    have hkstep : killStep vm ap w st a =
        { st with
          stats := alistModify st.stats a.agent_id
            (fun s => { s with deaths := s.deaths + 1 })
          events := st.events ++ [Event.death a.agent_id] } := by
      unfold killStep
      dsimp only
      rw [if_pos hcond]
      rcases hw with hw | hw | hw
      all_goals rw [hw]
      all_goals try rfl
      all_goals dsimp only
      all_goals rw [if_neg (by simp)]
    refine ⟨?_, ?_, ?_, ?_⟩
    · rw [killPhase_events, hev, List.nil_append]
      exact countP_victims_one vm ap agents a hmem hnd (by rw [hevof]; rfl)
    · rw [killPhase_events]
      have : Event.death a.agent_id ∈ (agents.map (eventsOf vm ap)).flatten := by
        apply List.mem_flatten.mpr
        exact ⟨eventsOf vm ap a, List.mem_map_of_mem _ hmem, by rw [hevof]; simp⟩
      simp [this]
    · rw [hkstep]
    · intro hhas
      rw [hkstep]
      dsimp only
      rw [alistGetD_modify_self _ _ _ _ hhas]

/-- Witness for C2 at a concrete state: a dead agent `A` whose pc rests on a
cell written by `B` yields one kill event and a `weights.kill` credit. -/
theorem C2_kill_attribution_witness :
    ((killPhase (⟨[0, 0], [some "B", none], []⟩ : VMachine) [("A", true)] 5
        [{ Agent.mk0 "A" 0 (0, 0) with alive := false }]
        ⟨[("A", 0), ("B", 0)], [("A", Stats.fresh), ("B", Stats.fresh)], []⟩).events.countP
      (fun e => victimOf e =
        ({ Agent.mk0 "A" 0 (0, 0) with alive := false } : Agent).agent_id) = 1) ∧
    alistGetD (killStep (⟨[0, 0], [some "B", none], []⟩ : VMachine) [("A", true)] 5
        ⟨[("A", 0), ("B", 0)], [("A", Stats.fresh), ("B", Stats.fresh)], []⟩
        { Agent.mk0 "A" 0 (0, 0) with alive := false }).score "B" 0 =
      alistGetD [("A", 0), ("B", 0)] "B" 0 + 5 := by
  have h := (C2_kill_attribution (⟨[0, 0], [some "B", none], []⟩ : VMachine)
      [("A", true)] 5 [{ Agent.mk0 "A" 0 (0, 0) with alive := false }]
      ⟨[("A", 0), ("B", 0)], [("A", Stats.fresh), ("B", Stats.fresh)], []⟩
      { Agent.mk0 "A" 0 (0, 0) with alive := false } "B"
      (by decide) (by decide) (by decide) (by decide) rfl).1
      (by decide) (by decide) (by decide)
  exact ⟨h.1, h.2.2.1⟩

/-! ### C1 -/

theorem keyLE_snd_le {p q : String × Int} (h : keyLE p q) : q.2 ≤ p.2 := by
  rcases h with h | ⟨h, _⟩
  · exact le_of_lt h
  · exact le_of_eq h.symm

theorem sortedTop_eq_uniqueTop (s : List (String × Int)) :
    (match sortScores s with
      | [] => ""
      | [x] => x.1
      | x :: y :: _ => if y.2 < x.2 then x.1 else "") = uniqueTopScorer s := by
  have hperm : List.Perm (sortScores s) s := List.perm_insertionSort keyLE s
  have hsorted : List.Sorted keyLE (sortScores s) := List.sorted_insertionSort keyLE s
  cases ht : sortScores s with
  | nil =>
      rw [ht] at hperm
      rw [List.nil_perm.mp hperm]
      rfl
  | cons x t =>
      cases t with
      | nil =>
          rw [ht] at hperm
          rw [List.perm_singleton.mp hperm.symm]
          simp [uniqueTopScorer]
      | cons y t =>
          rw [ht] at hperm hsorted
          dsimp only
          have hxall : ∀ b ∈ y :: t, keyLE x b := List.rel_of_sorted_cons hsorted
          have hx2 : ∀ b ∈ y :: t, b.2 ≤ x.2 := fun b hb => keyLE_snd_le (hxall b hb)
          have hsall : ∀ q ∈ s, q.2 ≤ x.2 := by
            intro q hq
            rcases List.mem_cons.mp (hperm.mem_iff.mpr hq) with rfl | hmem
            · exact le_refl _
            · exact hx2 q hmem
          have hxmem : x ∈ s := hperm.mem_iff.mp (List.mem_cons_self _ _)
          have hfilter : List.Perm
              ((x :: y :: t).filter (fun p => s.all (fun q => q.2 ≤ p.2)))
              (s.filter (fun p => s.all (fun q => q.2 ≤ p.2))) :=
            hperm.filter _
          have hPx : (s.all (fun q => q.2 ≤ x.2)) = true := by
            rw [List.all_eq_true]
            intro q hq
            simpa using hsall q hq
          by_cases hlt : y.2 < x.2
          · rw [if_pos hlt]
            have hPnot : ∀ b ∈ y :: t, (s.all (fun q => q.2 ≤ b.2)) = false := by
              intro b hb
              have hblt : b.2 < x.2 := by
                rcases List.mem_cons.mp hb with rfl | hbt
                · exact hlt
                · have h1 : b.2 ≤ y.2 :=
                    keyLE_snd_le (List.rel_of_sorted_cons hsorted.of_cons b hbt)
                  exact lt_of_le_of_lt h1 hlt
              rw [List.all_eq_false]
              refine ⟨x, hxmem, ?_⟩
              simp only [decide_eq_true_eq]
              omega
            have hfx : (x :: y :: t).filter (fun p => s.all (fun q => q.2 ≤ p.2)) = [x] := by
              rw [List.filter_cons_of_pos
                (p := fun r => s.all (fun q => decide (q.2 ≤ r.2))) (a := x) hPx]
              have : (y :: t).filter (fun p => s.all (fun q => q.2 ≤ p.2)) = [] := by
                rw [List.filter_eq_nil_iff]
                intro b hb
                rw [hPnot b hb]
                simp
              rw [this]
            rw [hfx] at hfilter
            have hsf := List.perm_singleton.mp hfilter.symm
            unfold uniqueTopScorer
            rw [hsf]
          · rw [if_neg hlt]
            have hxy2 : y.2 = x.2 :=
              le_antisymm (hx2 y (List.mem_cons_self _ _)) (not_lt.mp hlt)
            have hPy : (s.all (fun q => q.2 ≤ y.2)) = true := by
              rw [List.all_eq_true]
              intro q hq
              rw [hxy2]
              simpa using hsall q hq
            have hlen : 2 ≤ ((x :: y :: t).filter
                (fun p => s.all (fun q => q.2 ≤ p.2))).length := by
              rw [List.filter_cons_of_pos
                  (p := fun r => s.all (fun q => decide (q.2 ≤ r.2))) (a := x) hPx,
                List.filter_cons_of_pos
                  (p := fun r => s.all (fun q => decide (q.2 ≤ r.2))) (a := y) hPy]
              simp
            rw [hfilter.length_eq] at hlen
            unfold uniqueTopScorer
            cases hsf : s.filter (fun p => s.all (fun q => q.2 ≤ p.2)) with
            | nil => rfl
            | cons w u =>
                cases u with
                | nil =>
                    rw [hsf] at hlen
                    simp at hlen
                | cons w2 u2 => rfl

/-- C1 counterexample: with `win_mode = "score"`, a final state where `A` is
the sole survivor with score 1 while the dead `B` holds the uniquely highest
score 10 resolves to `"A"`, not to the uniquely highest scorer `"B"` — the
sole-survivor rule takes precedence over score in every mode. -/
theorem C1_counterexample :
    resolveWinner
        [Agent.mk0 "A" 0 (0, 0), { Agent.mk0 "B" 0 (0, 0) with alive := false }]
        "score" [("A", 1), ("B", 10)] = "A" ∧
    uniqueTopScorer [("A", 1), ("B", 10)] = "B" ∧
    ("A" : String) ≠ "B" ∧ ("A" : String) ≠ "" := by
  decide

/-- C1 amended: in `"score"` mode `Kernel.run`'s winner resolution returns
the sole survivor when exactly one agent is alive, and otherwise the agent
whose score is uniquely highest (empty string when the top score is tied);
the winner returned by `Kernel.run` is exactly `resolveWinner` applied to
the final state. -/
theorem C1_score_winner (agents : List Agent) (score : List (String × Int)) :
    resolveWinner agents "score" score =
      (match (agents.filter (fun a => a.alive)).map (fun a => a.agent_id) with
        | [x] => x
        | _ => uniqueTopScorer score) ∧
    (∀ (k : Kernel) (mt : Nat),
      (k.run mt).1 =
        resolveWinner (k.run mt).2.1.agents (k.run mt).2.1.cfg.win_mode
          (k.run mt).2.1.score) := by
  constructor
  · unfold resolveWinner
    have hmode : (pyLower (if ("score" : String) = "" then "score_fallback" else "score")
        = "survival") = False := by
      simp only [eq_iff_iff, iff_false]
      decide
    cases hai : (agents.filter (fun a => a.alive)).map (fun a => a.agent_id) with
    | nil =>
        dsimp only
        simp only [hmode, if_false]
        exact sortedTop_eq_uniqueTop score
    | cons x t =>
        cases t with
        | nil => rfl
        | cons y u =>
            dsimp only
            simp only [hmode, if_false]
            exact sortedTop_eq_uniqueTop score
  · intro k mt
    rfl

/-! ### C4 -/

theorem scanRecord_no_alive (st : FinalSt) (r : Record) (hr : r.aliveTop = none) :
    scanRecord st r =
      { st with
        A_last := scoreScan "A" st.A_last r
        B_last := scoreScan "B" st.B_last r } := by
  obtain ⟨tick, ver, ags, sc, ev, md, al⟩ := r
  have hal : al = none := hr
  subst hal
  unfold scanRecord scoreScan
  dsimp only
  cases tick with
  | none =>
      cases sc with
      | none => rfl
      | some sc0 =>
          dsimp only
          cases alistLookup sc0 "A" <;> cases alistLookup sc0 "B" <;> rfl
  | some t =>
      cases sc with
      | none => rfl
      | some sc0 =>
          dsimp only
          cases alistLookup sc0 "A" <;> cases alistLookup sc0 "B" <;> rfl

theorem scan_fold (replay : List Record) (st : FinalSt)
    (h : ∀ r ∈ replay, r.aliveTop = none) :
    replay.foldl scanRecord st =
      { st with
        A_last := replay.foldl (scoreScan "A") st.A_last
        B_last := replay.foldl (scoreScan "B") st.B_last } := by
  induction replay generalizing st with
  | nil => rfl
  | cons r t ih =>
      rw [List.foldl_cons,
        scanRecord_no_alive st r (h r (List.mem_cons_self _ _)),
        ih _ (fun r' hr' => h r' (List.mem_cons_of_mem _ hr'))]
      rfl

/-- C4 counterexample: the reconciliation helper counts alive ticks only
from a top-level `"alive"` key, which `Kernel._snapshot` never writes; on a
replay whose single tick record reports `A` alive via `agents[*].alive`, the
helper returns `A_alive_ticks = 0` while the claim demands 1 (the scores are
still reconstructed, here `A_score = 7`). -/
theorem C4_counterexample :
    (final_from_replay [headerRecord,
        ⟨some 1, none, some [⟨"A", 0, true, 0, 0, (0, 0)⟩], some [("A", 7)],
          some [], some [], none⟩]).2.2.1 = 0 ∧
    specAliveTicks [headerRecord,
        ⟨some 1, none, some [⟨"A", 0, true, 0, 0, (0, 0)⟩], some [("A", 7)],
          some [], some [], none⟩] "A" = 1 ∧
    (final_from_replay [headerRecord,
        ⟨some 1, none, some [⟨"A", 0, true, 0, 0, (0, 0)⟩], some [("A", 7)],
          some [], some [], none⟩]).1 = 7 ∧
    (0 : Nat) ≠ 1 := by
  decide

/-- C4 amended: on every replay without top-level `"alive"` keys — which
includes every replay the Kernel produces, since neither the header nor
`_snapshot` emits one — the helper returns the last observed `score["A"]`
and `score["B"]` (0 when never seen), but returns `A_alive_ticks =
B_alive_ticks = 0` regardless of the `agents[*].alive` flags. -/
theorem C4_reconciliation (replay : List Record)
    (h : ∀ r ∈ replay, r.aliveTop = none) :
    (final_from_replay replay).1 = pyOrZero (specLastScore replay "A") ∧
    (final_from_replay replay).2.1 = pyOrZero (specLastScore replay "B") ∧
    (final_from_replay replay).2.2.1 = 0 ∧
    (final_from_replay replay).2.2.2 = 0 ∧
    (∀ (k : Kernel) (ev : List Event), (Kernel.snapshot k ev).aliveTop = none) ∧
    headerRecord.aliveTop = none := by
  unfold final_from_replay
  rw [scan_fold replay ⟨none, none, 0, 0, []⟩ h]
  exact ⟨rfl, rfl, rfl, rfl, fun k ev => rfl, rfl⟩

/-- Witness for C4 on a concrete snapshot-shaped replay. -/
theorem C4_reconciliation_witness :
    (final_from_replay [headerRecord,
        ⟨some 1, none, some [⟨"A", 0, true, 0, 0, (0, 0)⟩], some [("A", 7)],
          some [], some [], none⟩]).2.2.1 = 0 ∧
    (final_from_replay [headerRecord,
        ⟨some 1, none, some [⟨"A", 0, true, 0, 0, (0, 0)⟩], some [("A", 7)],
          some [], some [], none⟩]).1 =
      pyOrZero (specLastScore [headerRecord,
        ⟨some 1, none, some [⟨"A", 0, true, 0, 0, (0, 0)⟩], some [("A", 7)],
          some [], some [], none⟩] "A") := by
  have h := C4_reconciliation [headerRecord,
      ⟨some 1, none, some [⟨"A", 0, true, 0, 0, (0, 0)⟩], some [("A", 7)],
        some [], some [], none⟩] (by decide)
  exact ⟨h.2.2.1, h.1⟩

end Battle
